import Mathlib

/-!
Verification of SBCL's GC crash-dump subsystem (`src/runtime/monitor.c`):
the image writer `save_gc_crashdump`, the image reader `load_gc_crashdump`
(STANDALONE_LDB), and the stack-word plausibility scan the reader performs.

The embedding models process memory as lists of abstract cells (`Nat`).
Every C byte count becomes a cell count; multi-field C structures are
serialized one cell per field, and the preamble signature is derived from
the serialized sizes exactly as `CRASH_PREAMBLE_SIGNATURE` derives it from
`sizeof`.  Build-configuration constants that live outside the dumped
repository files (space sizes, card geometry, `sizeof (os_context_t)`,
`sizeof (struct thread)`) are fixed small numbers so that every definition
evaluates on concrete inputs; none of the theorems depend on their values.
The build modeled is the one the writer compiles for:
LISP_FEATURE_X86_64 + LISP_FEATURE_SB_THREAD + LISP_FEATURE_C_STACK_IS_CONTROL_STACK
+ LISP_FEATURE_IMMOBILE_SPACE.
-/

namespace SbclCrash

/-- Cells per page of dynamic space (`GENCGC_PAGE_BYTES`; configuration
constant defined outside the dumped sources). -/
def GENCGC_PAGE_BYTES : Nat := 2

/-- Card size parameter (`GENCGC_CARD_BYTES`), the compiled-in value the
reader compares the preamble's `card_size` against. -/
def GENCGC_CARD_BYTES : Nat := 4

/-- Modelled from the spec: the consumer's running configuration value of
`gc_card_table_nbits` (the card-table index width) as established by
`gc_init` before `load_gc_crashdump` runs; the initialization code is not
part of the dumped sources. -/
def gc_card_table_nbits_initial : Nat := 1

/-- `dynamic_space_size` of the restoring process
(`DEFAULT_DYNAMIC_SPACE_SIZE`; configuration constant outside the dumped
sources), the size of the envelope used by the stack-word scan. -/
def dynamic_space_size : Nat := 16

/-- `FIXEDOBJ_SPACE_SIZE` (configuration constant outside the dumped
sources). -/
def FIXEDOBJ_SPACE_SIZE : Nat := 4

/-- `VARYOBJ_SPACE_SIZE` (configuration constant outside the dumped
sources). -/
def VARYOBJ_SPACE_SIZE : Nat := 4

/-- `IMMOBILE_CARD_BYTES` (configuration constant outside the dumped
sources). -/
def IMMOBILE_CARD_BYTES : Nat := 2

/-- `sizeof (os_context_t)` in cells (configuration constant outside the
dumped sources).  Cell 0 of a context holds its stack-pointer register
(`reg_SP`), the register the reader patches. -/
def sizeof_os_context : Nat := 2

/-- `sizeof (struct thread)` in cells (declared outside the dumped
sources).  The reader skips `sizeof (struct thread) - N_WORD_BYTES` cells
of the dumped thread-local block, keeping the fresh thread's identity
header. -/
def sizeof_struct_thread : Nat := 3

/-- The skipped identity-header size: `sizeof dummy - N_WORD_BYTES`
(one word = one cell here), from `load_gc_crashdump`. -/
def TLS_SKIP : Nat := sizeof_struct_thread - 1

/-- `ALIGN_UP` from the runtime headers. -/
def ALIGN_UP (n k : Nat) : Nat := ((n + k - 1) / k) * k

/-- Number of fixedobj page-table entries always transferred:
`FIXEDOBJ_SPACE_SIZE / IMMOBILE_CARD_BYTES`. -/
def FIXEDOBJ_TOTAL_NPAGES : Nat := FIXEDOBJ_SPACE_SIZE / IMMOBILE_CARD_BYTES

/-- Number of varyobj page-table entries always transferred:
`VARYOBJ_SPACE_SIZE / IMMOBILE_CARD_BYTES`. -/
def VARYOBJ_TOTAL_NPAGES : Nat := VARYOBJ_SPACE_SIZE / IMMOBILE_CARD_BYTES

/-- `n_bitmap_elts = ALIGN_UP(total_npages, 32) / 32` for the varyobj
touched-bits bitmap. -/
def VARYOBJ_N_BITMAP_ELTS : Nat := ALIGN_UP VARYOBJ_TOTAL_NPAGES 32 / 32

/-- The trailing signature `"SB.Crash"`, one cell per character. -/
def CRASH_MAGIC : List Nat := [83, 66, 46, 67, 114, 97, 115, 104]

/-- Page kinds stored in a page-table entry's `type` field
(`PAGE_TYPE_CODE` / `PAGE_TYPE_BOXED` / `PAGE_TYPE_UNBOXED` /
`PAGE_TYPE_MIXED`, plus free), as enumerated by `pagetypedesc`. -/
inductive PageKind where
  | free
  | boxed
  | unboxed
  | code
  | mixed
  deriving DecidableEq, Repr

/-- Serialization of a page kind to one cell. -/
def encodePageKind : PageKind → Nat
  | .free => 0
  | .boxed => 1
  | .unboxed => 2
  | .code => 3
  | .mixed => 4

/-- Deserialization of a page kind from one cell. -/
def decodePageKind : Nat → PageKind
  | 0 => .free
  | 1 => .boxed
  | 2 => .unboxed
  | 3 => .code
  | _ => .mixed

/-- Modelled from the spec: `is_code(type)` from the GC headers (not among
the dumped sources) recognizes exactly the code page kind. -/
def is_code (k : PageKind) : Bool := k == PageKind.code

/-- A dynamic-space page-table entry (`struct page`): generation, page
type, words used, scan-start offset. -/
structure page where
  gen : Nat
  type : PageKind
  words_used : Nat
  scan_start_offset : Nat
  deriving DecidableEq, Repr

/-- The all-zero page-table entry `calloc` produces for pages beyond the
portion read from the image. -/
def zeroPage : page := { gen := 0, type := .free, words_used := 0, scan_start_offset := 0 }

/-- Cells per serialized page-table entry. -/
def PTE_NCELLS : Nat := 4

/-- Serialize one page-table entry. -/
def encodePte (p : page) : List Nat :=
  [p.gen, encodePageKind p.type, p.words_used, p.scan_start_offset]

/-- Deserialize a flat cell list into page-table entries, four cells per
entry. -/
def decodePtes : List Nat → List page
  | a :: b :: c :: d :: rest =>
      { gen := a, type := decodePageKind b, words_used := c, scan_start_offset := d }
        :: decodePtes rest
  | _ => []

/-- `struct crash_preamble`, one field per cell. -/
structure crash_preamble where
  signature : Nat
  static_start : Nat
  static_nbytes : Nat
  dynspace_start : Nat
  dynspace_npages : Nat
  card_size : Nat
  card_table_nbits : Nat
  fixedobj_start : Nat
  fixedobj_size : Nat
  fixedobj_free_pointer : Nat
  varyobj_start : Nat
  varyobj_size : Nat
  varyobj_free_pointer : Nat
  nthreads : Nat
  tls_size : Nat
  lisp_package_vector : Nat
  sprof_enabled : Nat
  pin_dynspace_code : Nat
  sizeof_context : Nat
  deriving DecidableEq, Repr

/-- Serialized size of `struct crash_preamble` (19 fields). -/
def SIZEOF_CRASH_PREAMBLE : Nat := 19

/-- `struct crash_thread_preamble`, one field per cell. -/
structure crash_thread_preamble where
  address : Nat
  has_context : Nat
  control_stack_nbytes : Nat
  binding_stack_nbytes : Nat
  deriving DecidableEq, Repr

/-- Serialized size of `struct crash_thread_preamble` (4 fields). -/
def SIZEOF_CRASH_THREAD_PREAMBLE : Nat := 4

/-- `CRASH_PREAMBLE_SIGNATURE = (sizeof (struct crash_preamble) << 16) |
sizeof (struct crash_thread_preamble)`, sizes measured in cells. -/
def CRASH_PREAMBLE_SIGNATURE : Nat :=
  SIZEOF_CRASH_PREAMBLE * 65536 + SIZEOF_CRASH_THREAD_PREAMBLE

/-- Serialize the preamble, field order exactly as declared in the C
struct. -/
def encodePreamble (p : crash_preamble) : List Nat :=
  [p.signature, p.static_start, p.static_nbytes, p.dynspace_start,
   p.dynspace_npages, p.card_size, p.card_table_nbits,
   p.fixedobj_start, p.fixedobj_size, p.fixedobj_free_pointer,
   p.varyobj_start, p.varyobj_size, p.varyobj_free_pointer,
   p.nthreads, p.tls_size, p.lisp_package_vector,
   p.sprof_enabled, p.pin_dynspace_code, p.sizeof_context]

/-- Deserialize the preamble from its cell list. -/
def decodePreamble (l : List Nat) : crash_preamble :=
  { signature := l.getD 0 0
    static_start := l.getD 1 0
    static_nbytes := l.getD 2 0
    dynspace_start := l.getD 3 0
    dynspace_npages := l.getD 4 0
    card_size := l.getD 5 0
    card_table_nbits := l.getD 6 0
    fixedobj_start := l.getD 7 0
    fixedobj_size := l.getD 8 0
    fixedobj_free_pointer := l.getD 9 0
    varyobj_start := l.getD 10 0
    varyobj_size := l.getD 11 0
    varyobj_free_pointer := l.getD 12 0
    nthreads := l.getD 13 0
    tls_size := l.getD 14 0
    lisp_package_vector := l.getD 15 0
    sprof_enabled := l.getD 16 0
    pin_dynspace_code := l.getD 17 0
    sizeof_context := l.getD 18 0 }

/-- Serialize a thread preamble. -/
def encodeThreadPreamble (t : crash_thread_preamble) : List Nat :=
  [t.address, t.has_context, t.control_stack_nbytes, t.binding_stack_nbytes]

/-- Deserialize a thread preamble. -/
def decodeThreadPreamble (l : List Nat) : crash_thread_preamble :=
  { address := l.getD 0 0
    has_context := l.getD 1 0
    control_stack_nbytes := l.getD 2 0
    binding_stack_nbytes := l.getD 3 0 }

/-- One thread of the captured process at dump time: its address
(identity), `FREE_INTERRUPT_CONTEXT_INDEX` value, interrupt context 0
(cell 0 = the `reg_SP` slot), control-stack end, the live control-stack
cells (from the stack pointer to `control_stack_end`; the stack grows
downward on this target), the live binding-stack cells, and the
thread-local block. -/
structure ThreadCap where
  address : Nat
  ici : Nat
  context : List Nat
  control_stack_end : Nat
  controlStack : List Nat
  bindingStack : List Nat
  tls : List Nat
  deriving DecidableEq, Repr

/-- The capture-side process state read by `save_gc_crashdump`: regions,
page table, card table, immobile spaces, and threads. -/
structure Heap where
  static_start : Nat
  staticBytes : List Nat
  dynspace_start : Nat
  next_free_page : Nat
  dynBytes : List Nat
  page_table : List page
  card_table_nbits : Nat
  gc_card_mark : List Nat
  fixedobj_start : Nat
  fixedobj_free_pointer : Nat
  fixedobjBytes : List Nat
  fixedobj_pages : List Nat
  varyobj_start : Nat
  varyobj_free_pointer : Nat
  varyobjBytes : List Nat
  varyobj_page_touched_bits : List Nat
  varyobj_pages : List Nat
  lisp_package_vector : Nat
  sprof_enabled : Nat
  pin_dynspace_code : Nat
  tls_size : Nat
  current_thread : Nat
  threads : List ThreadCap
  deriving DecidableEq, Repr

/-- The stack pointer the writer uses for a thread: the context's
`reg_SP` when the thread has interrupt contexts, otherwise
`approx_stackptr_at_gc_start` (only legal for the capturing thread). -/
def capture_sp (approx : Nat) (th : ThreadCap) : Nat :=
  if th.ici ≠ 0 then th.context.headD 0 else approx

/-- Which emission a write operation belongs to. -/
inductive WriteKind where
  | preambleW
  | staticW
  | dynW
  | pageTableW
  | cardTableW
  | fixedobjW
  | fixedobjPTW
  | varyobjW
  | touchedBitsW
  | varyobjPTW
  | threadPreambleW
  | contextW
  | controlStackW
  | bindingStackW
  | tlsW
  | trailerW
  deriving DecidableEq, Repr, BEq

/-- One `write`/`checked_write` call made by the writer: the cells it
asks the OS to transfer and whether the transfer count is verified
(`checked_write` loses on a short write; a bare `write` ignores the
count). -/
structure WriteOp where
  kind : WriteKind
  data : List Nat
  checked : Bool
  deriving DecidableEq, Repr

/-- The preamble `save_gc_crashdump` fills in for a heap. -/
def preambleOf (H : Heap) : crash_preamble :=
  { signature := CRASH_PREAMBLE_SIGNATURE
    static_start := H.static_start
    static_nbytes := H.staticBytes.length
    dynspace_start := H.dynspace_start
    dynspace_npages := H.next_free_page
    card_size := GENCGC_CARD_BYTES
    card_table_nbits := H.card_table_nbits
    fixedobj_start := H.fixedobj_start
    fixedobj_size := FIXEDOBJ_SPACE_SIZE
    fixedobj_free_pointer := H.fixedobj_free_pointer
    varyobj_start := H.varyobj_start
    varyobj_size := VARYOBJ_SPACE_SIZE
    varyobj_free_pointer := H.varyobj_free_pointer
    nthreads := H.threads.length
    tls_size := H.tls_size
    lisp_package_vector := H.lisp_package_vector
    sprof_enabled := H.sprof_enabled
    pin_dynspace_code := H.pin_dynspace_code
    sizeof_context := sizeof_os_context }

/-- The writes `save_gc_crashdump` performs for one thread: the thread
preamble, the interrupt context (only when `ici != 0`, and via a bare
unchecked `write`), the live control stack, the live binding stack, and
the whole thread-local block. -/
def thread_writes (approx : Nat) (th : ThreadCap) : List WriteOp :=
  ⟨.threadPreambleW,
    encodeThreadPreamble
      { address := th.address
        has_context := if th.ici ≠ 0 then 1 else 0
        control_stack_nbytes := th.control_stack_end - capture_sp approx th
        binding_stack_nbytes := th.bindingStack.length },
    true⟩ ::
  ((if th.ici ≠ 0 then [(⟨.contextW, th.context, false⟩ : WriteOp)] else []) ++
   [⟨.controlStackW, th.controlStack, true⟩,
    ⟨.bindingStackW, th.bindingStack, true⟩,
    ⟨.tlsW, th.tls, true⟩])

/-- The writes `save_gc_crashdump` performs before the trailing
signature: preamble, static space, dynamic space, page table (first
`next_free_page` entries), card table, fixedobj space and its page
table, varyobj space with touched bits and its page table, and each
thread's records. -/
def content_writes (H : Heap) (approx : Nat) : List WriteOp :=
  ⟨.preambleW, encodePreamble (preambleOf H), true⟩ ::
  ⟨.staticW, H.staticBytes, true⟩ ::
  ⟨.dynW, H.dynBytes, true⟩ ::
  ⟨.pageTableW, (H.page_table.take H.next_free_page).flatMap encodePte, true⟩ ::
  ⟨.cardTableW, H.gc_card_mark, true⟩ ::
  ⟨.fixedobjW, H.fixedobjBytes, true⟩ ::
  ⟨.fixedobjPTW, H.fixedobj_pages, true⟩ ::
  ⟨.varyobjW, H.varyobjBytes, true⟩ ::
  ⟨.touchedBitsW, H.varyobj_page_touched_bits, true⟩ ::
  ⟨.varyobjPTW, H.varyobj_pages, true⟩ ::
  H.threads.flatMap (thread_writes approx)

/-- The complete ordered sequence of writes `save_gc_crashdump`
performs: the content followed by the trailing signature. -/
def capture_writes (H : Heap) (approx : Nat) : List WriteOp :=
  content_writes H approx ++ [⟨.trailerW, CRASH_MAGIC, true⟩]

/-- Errors of the writer. -/
inductive SaveErr where
  | noStackptr
  | shortWrite
  deriving DecidableEq, Repr

/-- `save_gc_crashdump`: fails (the `_exit(1)` path) when some thread
other than the capturing thread has no interrupt context, since no stack
pointer can be determined for it; otherwise produces the write
sequence. -/
def save_gc_crashdump (approx : Nat) (H : Heap) : Except SaveErr (List WriteOp) :=
  if H.threads.any (fun th => th.ici == 0 && !(th.address == H.current_thread))
  then .error .noStackptr
  else .ok (capture_writes H approx)

/-- Execute a write sequence against actual per-write transfer counts.
A `checked_write` whose transfer count differs from the requested count
is fatal (`lose`); a bare `write` never checks. -/
def run_writes : List (WriteOp × Nat) → Except SaveErr Unit
  | [] => .ok ()
  | (op, actual) :: rest =>
      if op.checked && !(actual == op.data.length) then .error .shortWrite
      else run_writes rest

/-- The cell stream of an entire image: the concatenated write data. -/
def tokensOf (ops : List WriteOp) : List Nat :=
  (ops.map (fun op => op.data)).flatten

/-- The image `save_gc_crashdump` produces for a heap. -/
def image_tokens (H : Heap) (approx : Nat) : List Nat :=
  tokensOf (capture_writes H approx)

/-- The image without its trailing signature. -/
def content_tokens (H : Heap) (approx : Nat) : List Nat :=
  tokensOf (content_writes H approx)

/-- The cell stream one thread's writes contribute to the image. -/
def threadTokens (approx : Nat) (th : ThreadCap) : List Nat :=
  tokensOf (thread_writes approx th)

/-- Errors of the reader.  `shortRead` is `checked_read` losing;
`badHeader` the signature mismatch; `memoryParams` the card-size
mismatch; `badSpaceSize` the immobile-space size assertions;
`corruptTrailer` the trailing-signature assertion; `extraBytes` the
final assertion that the image has been fully consumed. -/
inductive LoadErr where
  | shortRead
  | badHeader
  | memoryParams
  | badSpaceSize
  | corruptTrailer
  | extraBytes
  deriving DecidableEq, Repr

/-- `checked_read`: take exactly `n` cells from the stream or lose. -/
def readN (n : Nat) (l : List Nat) : Except LoadErr (List Nat × List Nat) :=
  if n ≤ l.length then .ok (l.take n, l.drop n) else .error .shortRead

/-- Modelled from the spec: `is_lisp_pointer` (a lowtag test defined
outside the dumped sources) — the low-order tag bits of an
object-reference pattern, distinguishing references from fixnums and
other immediates. -/
def is_lisp_pointer (w : Nat) : Bool := w % 4 == 3

/-- `find_page_index` for the dynamic space. -/
def find_page_index (dynStart w : Nat) : Nat := (w - dynStart) / GENCGC_PAGE_BYTES

/-- The reader's stack-word plausibility test: the word lies inside the
dynamic-space envelope and either carries a pointer lowtag or points
into a code page. -/
def plausible_stack_word (dynStart : Nat) (pt : List page) (w : Nat) : Bool :=
  decide (dynStart ≤ w ∧ w < dynStart + dynamic_space_size) &&
  (is_lisp_pointer w || is_code ((pt.getD (find_page_index dynStart w) zeroPage).type))

/-- The diagnostic scan over one restored control stack: counts
(definitely-valid, dangling) words, resolving candidates with
`search_dynamic_space` (an external collaborator, passed in). -/
def scan_stack (dynStart : Nat) (pt : List page)
    (search_dynamic_space : Nat → Option Nat) (ws : List Nat) : Nat × Nat :=
  ws.foldl
    (fun c w =>
      if plausible_stack_word dynStart pt w then
        match search_dynamic_space w with
        | some _ => (c.1 + 1, c.2)
        | none => (c.1, c.2 + 1)
      else c)
    (0, 0)

/-- A freshly allocated thread as `alloc_thread_struct` produces it: the
new stack placement and the initial contents of its thread-local block
(whose leading `TLS_SKIP` cells the reader preserves). -/
structure Fresh where
  control_stack_end : Nat
  tlsInit : List Nat
  deriving DecidableEq, Repr

/-- A reconstructed thread: its patched interrupt context, replayed
stacks and thread-local block, and the stack pointer the reader computed
for it. -/
structure RThread where
  context : List Nat
  controlStack : List Nat
  bindingStack : List Nat
  tls : List Nat
  stackptr : Nat
  deriving DecidableEq, Repr

/-- Everything `load_gc_crashdump` reconstructs, plus the diagnostic
counts it reports per thread. -/
structure LoadResult where
  preamble : crash_preamble
  staticBytes : List Nat
  dynBytes : List Nat
  page_table : List page
  gc_card_mark : List Nat
  fixedobjBytes : List Nat
  fixedobj_pages : List Nat
  varyobjBytes : List Nat
  varyobj_page_touched_bits : List Nat
  varyobj_pages : List Nat
  threads : List RThread
  telemetry : List (Nat × Nat)
  deriving DecidableEq, Repr

/-- The per-thread portion of `load_gc_crashdump`: for each of `n`
remaining threads, allocate a fresh thread, read the thread preamble,
optionally the context (whose stack-pointer register is then patched to
the top of the freshly placed stack), the control stack, the binding
stack, and the thread-local block minus the skipped header; push the
thread on the front of the accumulated list and record the diagnostic
scan counts. -/
def loadThreads (search : Nat → Option Nat) (fresh : Nat → Fresh)
    (p : crash_preamble) (pt : List page) :
    Nat → Nat → List Nat → List RThread → List (Nat × Nat) →
    Except LoadErr (List RThread × List (Nat × Nat) × List Nat)
  | 0, _, r, acc, tel => .ok (acc, tel, r)
  | n + 1, i, r, acc, tel => do
      let f := fresh i
      let (tpre, r) ← readN SIZEOF_CRASH_THREAD_PREAMBLE r
      let tp := decodeThreadPreamble tpre
      let stackptr := f.control_stack_end - tp.control_stack_nbytes
      let (ctx, r) ←
        if tp.has_context ≠ 0 then readN p.sizeof_context r
        else pure (List.replicate p.sizeof_context 0, r)
      let ctx := ctx.set 0 stackptr
      let (cs, r) ← readN tp.control_stack_nbytes r
      let (bs, r) ← readN tp.binding_stack_nbytes r
      let (_, r) ← readN TLS_SKIP r
      let (tlsTail, r) ← readN (p.tls_size - TLS_SKIP) r
      let tls := f.tlsInit.take TLS_SKIP ++ tlsTail
      let counts := scan_stack p.dynspace_start pt search cs
      loadThreads search fresh p pt n (i + 1) r
        (⟨ctx, cs, bs, tls, stackptr⟩ :: acc) (tel ++ [counts])

/-- `load_gc_crashdump`: read and validate the preamble (structural
signature, card size), adopt the image's card-table index width, replay
static space, dynamic space, page table and card table, check the
immobile-space sizes and replay both immobile spaces with their tables,
reconstruct every thread, then demand the trailing signature and that
nothing follows it. -/
def load_gc_crashdump (search : Nat → Option Nat) (fresh : Nat → Fresh)
    (img : List Nat) : Except LoadErr LoadResult := do
  let (preCells, r) ← readN SIZEOF_CRASH_PREAMBLE img
  let p := decodePreamble preCells
  if p.signature ≠ CRASH_PREAMBLE_SIGNATURE then throw .badHeader
  else if p.card_size ≠ GENCGC_CARD_BYTES then throw .memoryParams
  else do
    let gc_card_table_mask := 2 ^ p.card_table_nbits - 1
    let (st, r) ← readN p.static_nbytes r
    let (dyn, r) ← readN (p.dynspace_npages * GENCGC_PAGE_BYTES) r
    let (ptCells, r) ← readN (p.dynspace_npages * PTE_NCELLS) r
    let pt := decodePtes ptCells
    let (card, r) ← readN (1 + gc_card_table_mask) r
    if p.fixedobj_size ≠ FIXEDOBJ_SPACE_SIZE then throw .badSpaceSize
    else if p.varyobj_size ≠ VARYOBJ_SPACE_SIZE then throw .badSpaceSize
    else do
      let (fb, r) ← readN (p.fixedobj_free_pointer - p.fixedobj_start) r
      let (fpt, r) ← readN FIXEDOBJ_TOTAL_NPAGES r
      let (vb, r) ← readN (p.varyobj_free_pointer - p.varyobj_start) r
      let (tb, r) ← readN VARYOBJ_N_BITMAP_ELTS r
      let (vpt, r) ← readN VARYOBJ_TOTAL_NPAGES r
      let (ths, tel, r) ← loadThreads search fresh p pt p.nthreads 0 r [] []
      let (magic, r) ← readN 8 r
      if magic ≠ CRASH_MAGIC then throw .corruptTrailer
      else if r ≠ [] then throw .extraBytes
      else
        pure
          { preamble := p
            staticBytes := st
            dynBytes := dyn
            page_table := pt
            gc_card_mark := card
            fixedobjBytes := fb
            fixedobj_pages := fpt
            varyobjBytes := vb
            varyobj_page_touched_bits := tb
            varyobj_pages := vpt
            threads := ths
            telemetry := tel }

/-- The thread `load_gc_crashdump` reconstructs from the dump record of
`th`, given the fresh thread it allocated for it. -/
def restoredThread (approx : Nat) (f : Fresh) (th : ThreadCap) : RThread :=
  let ncs := th.control_stack_end - capture_sp approx th
  let stackptr := f.control_stack_end - ncs
  { context :=
      (if th.ici ≠ 0 then th.context else List.replicate sizeof_os_context 0).set 0 stackptr
    controlStack := th.controlStack
    bindingStack := th.bindingStack
    tls := f.tlsInit.take TLS_SKIP ++ th.tls.drop TLS_SKIP
    stackptr := stackptr }

/-- The threads `load_gc_crashdump` reconstructs, in image order,
starting from fresh-thread index `i`. -/
def restoredThreadsFrom (approx : Nat) (fresh : Nat → Fresh) :
    Nat → List ThreadCap → List RThread
  | _, [] => []
  | i, th :: rest =>
      restoredThread approx (fresh i) th :: restoredThreadsFrom approx fresh (i + 1) rest

/-- The full result `load_gc_crashdump` produces from the image of a
well-formed heap: every region, table and bitmap replayed verbatim, the
threads reconstructed and pushed on the front of the thread list (hence
reversed), and the per-thread diagnostic counts. -/
def expectedResult (H : Heap) (approx : Nat) (fresh : Nat → Fresh)
    (search : Nat → Option Nat) : LoadResult :=
  { preamble := preambleOf H
    staticBytes := H.staticBytes
    dynBytes := H.dynBytes
    page_table := H.page_table.take H.next_free_page
    gc_card_mark := H.gc_card_mark
    fixedobjBytes := H.fixedobjBytes
    fixedobj_pages := H.fixedobj_pages
    varyobjBytes := H.varyobjBytes
    varyobj_page_touched_bits := H.varyobj_page_touched_bits
    varyobj_pages := H.varyobj_pages
    threads := (restoredThreadsFrom approx fresh 0 H.threads).reverse
    telemetry :=
      H.threads.map
        (fun th =>
          scan_stack H.dynspace_start (H.page_table.take H.next_free_page)
            search th.controlStack) }

/-- Well-formedness of one captured thread with respect to the stack
pointer the writer derives: the context has the declared register-file
size, the recorded stack slice really spans from the stack pointer to
the stack end, and the thread-local block has the declared size. -/
def thread_wf (approx tlsz : Nat) (th : ThreadCap) : Prop :=
  th.context.length = sizeof_os_context ∧
  capture_sp approx th ≤ th.control_stack_end ∧
  th.controlStack.length = th.control_stack_end - capture_sp approx th ∧
  th.tls.length = tlsz

instance (approx tlsz : Nat) (th : ThreadCap) : Decidable (thread_wf approx tlsz th) := by
  unfold thread_wf; infer_instance

/-- Well-formedness of a captured heap: each memory range has the length
its describing fields declare (these are facts about C memory that hold
by construction in the running process). -/
def Heap.wf (H : Heap) (approx : Nat) : Prop :=
  H.dynBytes.length = H.next_free_page * GENCGC_PAGE_BYTES ∧
  H.next_free_page ≤ H.page_table.length ∧
  H.gc_card_mark.length = 2 ^ H.card_table_nbits ∧
  H.fixedobj_start ≤ H.fixedobj_free_pointer ∧
  H.fixedobjBytes.length = H.fixedobj_free_pointer - H.fixedobj_start ∧
  H.fixedobj_pages.length = FIXEDOBJ_TOTAL_NPAGES ∧
  H.varyobj_start ≤ H.varyobj_free_pointer ∧
  H.varyobjBytes.length = H.varyobj_free_pointer - H.varyobj_start ∧
  H.varyobj_page_touched_bits.length = VARYOBJ_N_BITMAP_ELTS ∧
  H.varyobj_pages.length = VARYOBJ_TOTAL_NPAGES ∧
  TLS_SKIP ≤ H.tls_size ∧
  ∀ th ∈ H.threads, thread_wf approx H.tls_size th

instance (H : Heap) (approx : Nat) : Decidable (Heap.wf H approx) := by
  unfold Heap.wf; infer_instance

/-- Well-formedness of the fresh-thread allocator: every fresh
thread-local block is at least as long as the skipped header. -/
def FreshWf (fresh : Nat → Fresh) : Prop :=
  ∀ i, TLS_SKIP ≤ (fresh i).tlsInit.length

/-- Decidable equality of reader and writer outcomes, for evaluating
the model on concrete inputs. -/
instance {e a : Type} [DecidableEq e] [DecidableEq a] : DecidableEq (Except e a) := fun x y =>
  match x, y with
  | .error u, .error v =>
      if h : u = v then isTrue (by rw [h])
      else isFalse (by intro hc; injection hc with h2; exact h h2)
  | .ok u, .ok v =>
      if h : u = v then isTrue (by rw [h])
      else isFalse (by intro hc; injection hc with h2; exact h h2)
  | .error u, .ok v => isFalse (by intro hc; exact Except.noConfusion hc)
  | .ok u, .error v => isFalse (by intro hc; exact Except.noConfusion hc)

/-- A load result with the diagnostic telemetry erased; the scan output
is advisory stderr text, not reconstructed state. -/
def stripTelemetry (r : LoadResult) : LoadResult := { r with telemetry := [] }

/-- The data of the first write of a given kind in a write sequence. -/
def write_data (k : WriteKind) (ops : List WriteOp) : List Nat :=
  ((ops.find? (fun op => op.kind == k)).map (fun op => op.data)).getD []

/-- Pair each write with an actual transfer count that is short exactly
on register-snapshot writes and full everywhere else. -/
def shortOnContext (ops : List WriteOp) : List (WriteOp × Nat) :=
  ops.map (fun op => (op, if op.kind == WriteKind.contextW then 0 else op.data.length))

/-- A resolver that finds no object anywhere (concrete instantiation of
`search_dynamic_space` for witnesses). -/
def resolve0 : Nat → Option Nat := fun _ => none

/-- A concrete fresh-thread allocator for witnesses. -/
def fresh0 : Nat → Fresh := fun _ => { control_stack_end := 90, tlsInit := [31, 32, 33, 34] }

/-- A concrete `approx_stackptr_at_gc_start` for witnesses. -/
def approx0 : Nat := 60

/-- A concrete thread stopped inside an interrupt frame (`ici = 1`); its
context's `reg_SP` slot holds 52. -/
def thread0 : ThreadCap :=
  { address := 100, ici := 1, context := [52, 7], control_stack_end := 54,
    controlStack := [3, 9], bindingStack := [5], tls := [11, 12, 13, 14] }

/-- A concrete capturing thread with no interrupt context (`ici = 0`);
its stack pointer is `approx0`. -/
def thread1 : ThreadCap :=
  { address := 200, ici := 0, context := [0, 0], control_stack_end := 61,
    controlStack := [8], bindingStack := [], tls := [21, 22, 23, 24] }

/-- A concrete well-formed heap with two threads, used by witnesses. -/
def crashH0 : Heap :=
  { static_start := 1000, staticBytes := [1], dynspace_start := 40,
    next_free_page := 1, dynBytes := [7, 7],
    page_table := [{ gen := 2, type := .boxed, words_used := 1, scan_start_offset := 0 }],
    card_table_nbits := 1, gc_card_mark := [1, 0],
    fixedobj_start := 70, fixedobj_free_pointer := 71, fixedobjBytes := [9],
    fixedobj_pages := [0, 0],
    varyobj_start := 80, varyobj_free_pointer := 80, varyobjBytes := [],
    varyobj_page_touched_bits := [0], varyobj_pages := [0, 0],
    lisp_package_vector := 5, sprof_enabled := 0, pin_dynspace_code := 1,
    tls_size := 4, current_thread := 200, threads := [thread0, thread1] }

/-- `crashH0` with a different card-table index width (and the card
table resized to match), used to show the width is not validated. -/
def crashH2 : Heap :=
  { crashH0 with
    card_table_nbits := 2
    gc_card_mark := [1, 0, 1, 0] }

/-- `crashH0` with more dynamic-space pages in use but identical
declared capacities, used to show the dumped page-table size tracks
usage. -/
def crashHb : Heap :=
  { crashH0 with
    next_free_page := 2
    dynBytes := [7, 7, 8, 8]
    page_table :=
      [{ gen := 2, type := .boxed, words_used := 1, scan_start_offset := 0 },
       { gen := 2, type := .mixed, words_used := 1, scan_start_offset := 0 }] }

/-- A one-page page table whose only page holds code, used to exhibit
the code-page disjunct of the plausibility test. -/
def codePT : List page := [{ gen := 1, type := .code, words_used := 1, scan_start_offset := 0 }]

/-- `crashH0` as seen from a different capturing thread, so that the
context-less thread is no longer the one performing the capture. -/
def crashHerr : Heap := { crashH0 with current_thread := 999 }

/-- A `checked_read` of an exact-length chunk consumes precisely that
chunk. -/
theorem readN_exact (l t : List Nat) : readN l.length (l ++ t) = .ok (l, t) := by
  unfold readN
  rw [if_pos (by simp)]
  rw [List.take_left, List.drop_left]

/-- A `checked_read` whose requested count equals the chunk length. -/
theorem readN_chunk {n : Nat} (l t : List Nat) (h : l.length = n) :
    readN n (l ++ t) = .ok (l, t) := by
  subst h; exact readN_exact l t

/-- A `checked_read` loses when the stream is too short. -/
theorem readN_short {n : Nat} (l : List Nat) (h : l.length < n) :
    readN n l = .error .shortRead := by
  unfold readN
  rw [if_neg (by omega)]

/-- Taking exactly the first chunk of an append. -/
theorem take_append_exact {α : Type} (a b : List α) {n : Nat} (h : a.length = n) :
    (a ++ b).take n = a := by
  subst h; exact List.take_left a b

/-- Dropping exactly the first chunk of an append. -/
theorem drop_append_exact {α : Type} (a b : List α) {n : Nat} (h : a.length = n) :
    (a ++ b).drop n = b := by
  subst h; exact List.drop_left a b

theorem encodePreamble_length (p : crash_preamble) :
    (encodePreamble p).length = SIZEOF_CRASH_PREAMBLE := rfl

theorem decode_encodePreamble (p : crash_preamble) :
    decodePreamble (encodePreamble p) = p := rfl

theorem encodeThreadPreamble_length (t : crash_thread_preamble) :
    (encodeThreadPreamble t).length = SIZEOF_CRASH_THREAD_PREAMBLE := rfl

theorem decode_encodeThreadPreamble (t : crash_thread_preamble) :
    decodeThreadPreamble (encodeThreadPreamble t) = t := rfl

theorem decodePageKind_encodePageKind (k : PageKind) :
    decodePageKind (encodePageKind k) = k := by cases k <;> rfl

theorem decodePtes_flatMap_encodePte (l : List page) :
    decodePtes (l.flatMap encodePte) = l := by
  induction l with
  | nil => rfl
  | cons p rest ih =>
      rw [List.flatMap_cons]
      show decodePtes (encodePte p ++ rest.flatMap encodePte) = p :: rest
      rw [encodePte]
      simp only [List.cons_append, List.nil_append, decodePtes, List.append_eq]
      rw [decodePageKind_encodePageKind, ih]

theorem flatMap_encodePte_length (l : List page) :
    (l.flatMap encodePte).length = l.length * PTE_NCELLS := by
  induction l with
  | nil => rfl
  | cons p rest ih =>
      simp [List.flatMap_cons, encodePte, ih, PTE_NCELLS]
      ring

theorem tokensOf_append (a b : List WriteOp) :
    tokensOf (a ++ b) = tokensOf a ++ tokensOf b := by
  simp [tokensOf]

theorem tokensOf_cons (op : WriteOp) (ops : List WriteOp) :
    tokensOf (op :: ops) = op.data ++ tokensOf ops := by
  simp [tokensOf]

theorem tokensOf_flatMap (l : List ThreadCap) (f : ThreadCap → List WriteOp) :
    tokensOf (l.flatMap f) = l.flatMap (fun x => tokensOf (f x)) := by
  induction l with
  | nil => rfl
  | cons a r ih => simp [List.flatMap_cons, tokensOf_append, ih]

/-- One thread's cell stream, written out: thread preamble, the context
only when the thread has one, then control stack, binding stack and
thread-local block. -/
theorem threadTokens_eq (approx : Nat) (th : ThreadCap) :
    threadTokens approx th =
      encodeThreadPreamble
        { address := th.address
          has_context := if th.ici ≠ 0 then 1 else 0
          control_stack_nbytes := th.control_stack_end - capture_sp approx th
          binding_stack_nbytes := th.bindingStack.length } ++
      ((if th.ici ≠ 0 then th.context else []) ++
       (th.controlStack ++ (th.bindingStack ++ th.tls))) := by
  by_cases h : th.ici = 0 <;> simp [threadTokens, tokensOf, thread_writes, h]

/-- The image is the content followed by the trailing signature. -/
theorem image_tokens_eq (H : Heap) (approx : Nat) :
    image_tokens H approx = content_tokens H approx ++ CRASH_MAGIC := by
  simp [image_tokens, content_tokens, capture_writes, tokensOf_append, tokensOf]

/-- The content cell stream, written out segment by segment. -/
theorem content_tokens_eq (H : Heap) (approx : Nat) :
    content_tokens H approx =
      encodePreamble (preambleOf H) ++ (H.staticBytes ++ (H.dynBytes ++
        ((H.page_table.take H.next_free_page).flatMap encodePte ++ (H.gc_card_mark ++
         (H.fixedobjBytes ++ (H.fixedobj_pages ++ (H.varyobjBytes ++
          (H.varyobj_page_touched_bits ++ (H.varyobj_pages ++
           H.threads.flatMap (threadTokens approx)))))))))) := by
  simp only [content_tokens, content_writes, tokensOf_cons, tokensOf_flatMap]
  rfl

theorem restoredThreadsFrom_length (approx : Nat) (fresh : Nat → Fresh) :
    ∀ (i : Nat) (ts : List ThreadCap),
      (restoredThreadsFrom approx fresh i ts).length = ts.length := by
  intro i ts
  induction ts generalizing i with
  | nil => rfl
  | cons th rest ih => simp [restoredThreadsFrom, ih]

theorem restoredThreadsFrom_getElem? (approx : Nat) (fresh : Nat → Fresh) :
    ∀ (ts : List ThreadCap) (i j : Nat),
      (restoredThreadsFrom approx fresh i ts)[j]? =
        (ts[j]?).map (fun th => restoredThread approx (fresh (i + j)) th) := by
  intro ts
  induction ts with
  | nil => intro i j; simp [restoredThreadsFrom]
  | cons th rest ih =>
      intro i j
      cases j with
      | zero => simp [restoredThreadsFrom]
      | succ j =>
          have h : i + (j + 1) = (i + 1) + j := by omega
          simp only [restoredThreadsFrom, List.getElem?_cons_succ, h]
          exact ih (i + 1) j

theorem except_bind_ok {ε α β : Type} (a : α) (f : α → Except ε β) :
    (Except.ok a : Except ε α) >>= f = f a := rfl

theorem except_bind_error {ε α β : Type} (e : ε) (f : α → Except ε β) :
    (Except.error e : Except ε α) >>= f = .error e := rfl

theorem except_pure_bind {ε α β : Type} (a : α) (f : α → Except ε β) :
    (pure a : Except ε α) >>= f = f a := rfl

/-- Reading the writer's per-thread stream reconstructs each thread's
records in order and leaves the rest of the stream untouched. -/
theorem loadThreads_spec (search : Nat → Option Nat) (fresh : Nat → Fresh)
    (p : crash_preamble) (pt : List page) (approx : Nat)
    (hctx : p.sizeof_context = sizeof_os_context)
    (hskip : TLS_SKIP ≤ p.tls_size) :
    ∀ (ts : List ThreadCap) (i : Nat) (acc : List RThread)
      (tel : List (Nat × Nat)) (tail : List Nat),
      (∀ th ∈ ts, thread_wf approx p.tls_size th) →
      loadThreads search fresh p pt ts.length i
          (ts.flatMap (threadTokens approx) ++ tail) acc tel =
        .ok ((restoredThreadsFrom approx fresh i ts).reverse ++ acc,
             tel ++ ts.map (fun th => scan_stack p.dynspace_start pt search th.controlStack),
             tail) := by
  intro ts
  induction ts with
  | nil =>
      intro i acc tel tail hwf
      simp [restoredThreadsFrom, loadThreads]
  | cons th rest ih =>
      intro i acc tel tail hwf
      obtain ⟨hctxlen, hsple, hcslen, htlslen⟩ := hwf th (by simp)
      have hrest : ∀ t ∈ rest, thread_wf approx p.tls_size t :=
        fun t ht => hwf t (by simp [ht])
      rw [List.flatMap_cons, List.length_cons]
      simp only [List.append_assoc]
      rw [threadTokens_eq]
      simp only [List.append_assoc]
      rw [loadThreads]
      rw [readN_chunk _ _ (encodeThreadPreamble_length _)]
      simp only [except_bind_ok, except_pure_bind, decode_encodeThreadPreamble]
      by_cases hici : th.ici = 0
      · -- no interrupt context: nothing to read, context is zero-filled
        simp only [hici, ne_eq, not_true_eq_false, if_false, ite_false, List.nil_append]
        rw [readN_chunk _ _ hcslen]
        simp only [except_bind_ok, except_pure_bind]
        rw [readN_chunk _ _ rfl]
        simp only [except_bind_ok, except_pure_bind]
        rw [show th.tls = th.tls.take TLS_SKIP ++ th.tls.drop TLS_SKIP from
          (List.take_append_drop _ _).symm]
        simp only [List.append_assoc]
        rw [readN_chunk _ _ (by rw [List.length_take]; omega)]
        simp only [except_bind_ok, except_pure_bind]
        rw [readN_chunk _ _ (by rw [List.length_drop]; omega)]
        simp only [except_bind_ok, except_pure_bind]
        rw [ih (i + 1) _ _ tail hrest]
        simp only [restoredThreadsFrom, List.reverse_cons, List.append_assoc,
          List.singleton_append, List.map_cons, restoredThread, capture_sp, hici,
          ne_eq, not_true_eq_false, if_false, ite_false, hctx]
      · -- has an interrupt context: read and patch it
        simp only [hici, ne_eq, not_false_eq_true, if_true, ite_true]
        rw [readN_chunk _ _ (hctxlen.trans hctx.symm)]
        simp only [except_bind_ok, except_pure_bind]
        rw [readN_chunk _ _ hcslen]
        simp only [except_bind_ok, except_pure_bind]
        rw [readN_chunk _ _ rfl]
        simp only [except_bind_ok, except_pure_bind]
        rw [show th.tls = th.tls.take TLS_SKIP ++ th.tls.drop TLS_SKIP from
          (List.take_append_drop _ _).symm]
        simp only [List.append_assoc]
        rw [readN_chunk _ _ (by rw [List.length_take]; omega)]
        simp only [except_bind_ok, except_pure_bind]
        rw [readN_chunk _ _ (by rw [List.length_drop]; omega)]
        simp only [except_bind_ok, except_pure_bind]
        rw [ih (i + 1) _ _ tail hrest]
        simp only [restoredThreadsFrom, List.reverse_cons, List.append_assoc,
          List.singleton_append, List.map_cons, restoredThread, capture_sp, hici,
          ne_eq, not_false_eq_true, if_true, ite_true]
        simp [List.append_assoc]

theorem preambleOf_signature (H : Heap) : (preambleOf H).signature = CRASH_PREAMBLE_SIGNATURE := rfl

theorem preambleOf_dynspace_start (H : Heap) : (preambleOf H).dynspace_start = H.dynspace_start := rfl

theorem preambleOf_card_size (H : Heap) : (preambleOf H).card_size = GENCGC_CARD_BYTES := rfl

theorem preambleOf_fixedobj_size (H : Heap) : (preambleOf H).fixedobj_size = FIXEDOBJ_SPACE_SIZE := rfl

theorem preambleOf_varyobj_size (H : Heap) : (preambleOf H).varyobj_size = VARYOBJ_SPACE_SIZE := rfl

theorem preambleOf_nthreads (H : Heap) : (preambleOf H).nthreads = H.threads.length := rfl

theorem preambleOf_dynspace_npages (H : Heap) :
    (preambleOf H).dynspace_npages = H.next_free_page := rfl

theorem preambleOf_card_table_nbits (H : Heap) :
    (preambleOf H).card_table_nbits = H.card_table_nbits := rfl

theorem preambleOf_tls_size (H : Heap) : (preambleOf H).tls_size = H.tls_size := rfl

theorem preambleOf_sizeof_context (H : Heap) : (preambleOf H).sizeof_context = sizeof_os_context := rfl

/-- Running the reader over a well-delimited segment stream: a preamble
that passes the signature and configuration checks, followed by
segments of exactly the lengths the preamble declares, is consumed
verbatim, leaving the reader at the thread records. -/
theorem load_segments (search : Nat → Option Nat) (fresh : Nat → Fresh)
    (p : crash_preamble) (st dyn ptc card fb fpt vb tb vpt thstream tail : List Nat)
    (hsig : p.signature = CRASH_PREAMBLE_SIGNATURE)
    (hcs : p.card_size = GENCGC_CARD_BYTES)
    (hfs : p.fixedobj_size = FIXEDOBJ_SPACE_SIZE)
    (hvs : p.varyobj_size = VARYOBJ_SPACE_SIZE)
    (h1 : st.length = p.static_nbytes)
    (h2 : dyn.length = p.dynspace_npages * GENCGC_PAGE_BYTES)
    (h3 : ptc.length = p.dynspace_npages * PTE_NCELLS)
    (h4 : card.length = 1 + (2 ^ p.card_table_nbits - 1))
    (h5 : fb.length = p.fixedobj_free_pointer - p.fixedobj_start)
    (h6 : fpt.length = FIXEDOBJ_TOTAL_NPAGES)
    (h7 : vb.length = p.varyobj_free_pointer - p.varyobj_start)
    (h8 : tb.length = VARYOBJ_N_BITMAP_ELTS)
    (h9 : vpt.length = VARYOBJ_TOTAL_NPAGES) :
    load_gc_crashdump search fresh
      (encodePreamble p ++ (st ++ (dyn ++ (ptc ++ (card ++ (fb ++ (fpt ++ (vb ++
        (tb ++ (vpt ++ (thstream ++ tail))))))))))) =
      (do
        let (ths, tel, r) ←
          loadThreads search fresh p (decodePtes ptc) p.nthreads 0 (thstream ++ tail) [] []
        let (magic, r) ← readN 8 r
        if magic ≠ CRASH_MAGIC then throw LoadErr.corruptTrailer
        else if r ≠ [] then throw LoadErr.extraBytes
        else
          pure
            { preamble := p
              staticBytes := st
              dynBytes := dyn
              page_table := decodePtes ptc
              gc_card_mark := card
              fixedobjBytes := fb
              fixedobj_pages := fpt
              varyobjBytes := vb
              varyobj_page_touched_bits := tb
              varyobj_pages := vpt
              threads := ths
              telemetry := tel } :
        Except LoadErr LoadResult) := by
  simp only [load_gc_crashdump]
  rw [readN_chunk _ _ (encodePreamble_length _)]
  simp only [except_bind_ok, decode_encodePreamble]
  rw [if_neg (by simp [hsig]), if_neg (by simp [hcs])]
  rw [readN_chunk _ _ h1]
  simp only [except_bind_ok]
  rw [readN_chunk _ _ h2]
  simp only [except_bind_ok]
  rw [readN_chunk _ _ h3]
  simp only [except_bind_ok]
  rw [readN_chunk _ _ h4]
  simp only [except_bind_ok]
  rw [if_neg (by simp [hfs]), if_neg (by simp [hvs])]
  rw [readN_chunk _ _ h5]
  simp only [except_bind_ok]
  rw [readN_chunk _ _ h6]
  simp only [except_bind_ok]
  rw [readN_chunk _ _ h7]
  simp only [except_bind_ok]
  rw [readN_chunk _ _ h8]
  simp only [except_bind_ok]
  rw [readN_chunk _ _ h9]
  simp only [except_bind_ok]

/-- Running the reader on the writer's content stream followed by an
arbitrary tail: every segment is consumed and replayed verbatim, and the
reader then validates the tail as the trailer. -/
theorem load_content (H : Heap) (approx : Nat) (fresh : Nat → Fresh)
    (search : Nat → Option Nat) (hwf : H.wf approx) (tail : List Nat) :
    load_gc_crashdump search fresh (content_tokens H approx ++ tail) =
      (do
        let (magic, r) ← readN 8 tail
        if magic ≠ CRASH_MAGIC then throw LoadErr.corruptTrailer
        else if r ≠ [] then throw LoadErr.extraBytes
        else pure (expectedResult H approx fresh search) :
        Except LoadErr LoadResult) := by
  obtain ⟨hdyn, hnfp, hcard, hfole, hfob, hfopt, hvole, hvob, htb, hvpt, hskip, hths⟩ := hwf
  rw [content_tokens_eq]
  simp only [List.append_assoc]
  rw [load_segments search fresh (preambleOf H) H.staticBytes H.dynBytes
    ((H.page_table.take H.next_free_page).flatMap encodePte) H.gc_card_mark
    H.fixedobjBytes H.fixedobj_pages H.varyobjBytes H.varyobj_page_touched_bits
    H.varyobj_pages (H.threads.flatMap (threadTokens approx)) tail
    rfl rfl rfl rfl rfl hdyn
    (by rw [flatMap_encodePte_length, List.length_take, preambleOf_dynspace_npages,
          Nat.min_def]
        split <;> omega)
    (by rw [hcard, preambleOf_card_table_nbits]
        have h2 : 1 ≤ 2 ^ H.card_table_nbits := Nat.one_le_two_pow
        omega)
    hfob hfopt hvob htb hvpt]
  simp only [decodePtes_flatMap_encodePte, preambleOf_nthreads]
  rw [loadThreads_spec search fresh (preambleOf H) (H.page_table.take H.next_free_page)
    approx (preambleOf_sizeof_context H)
    (by rw [preambleOf_tls_size]; exact hskip) H.threads 0 [] [] tail
    (by rw [preambleOf_tls_size]; exact hths)]
  simp only [except_bind_ok, expectedResult, preambleOf_tls_size,
    preambleOf_dynspace_start, List.append_nil, List.nil_append]

/-- Claim C10: capture fails fatally exactly when some thread other than
the capturing thread has no active interrupt context (no stack pointer
can be determined for it); it succeeds, producing the full write
sequence, exactly when every other thread was stopped inside a
signal/interrupt frame. -/
theorem save_requires_context_for_other_threads (approx : Nat) (H : Heap) :
    (save_gc_crashdump approx H = .error .noStackptr ↔
      ∃ th ∈ H.threads, th.address ≠ H.current_thread ∧ th.ici = 0) ∧
    (save_gc_crashdump approx H = .ok (capture_writes H approx) ↔
      ∀ th ∈ H.threads, th.address ≠ H.current_thread → th.ici ≠ 0) := by
  unfold save_gc_crashdump
  by_cases h : H.threads.any (fun th => th.ici == 0 && !(th.address == H.current_thread)) <;>
    simp only [List.any_eq_true, Bool.and_eq_true, beq_iff_eq, Bool.not_eq_true',
      beq_eq_false_iff_ne, ne_eq] at h
  · rw [if_pos (by simp only [List.any_eq_true, Bool.and_eq_true, beq_iff_eq,
      Bool.not_eq_true', beq_eq_false_iff_ne]; exact h)]
    obtain ⟨th, hmem, hici, haddr⟩ := h
    constructor
    · exact ⟨fun _ => ⟨th, hmem, haddr, hici⟩, fun _ => rfl⟩
    · constructor
      · intro hok; cases hok
      · intro hall; exact absurd hici (hall th hmem haddr)
  · rw [if_neg (by simp only [List.any_eq_true, Bool.and_eq_true, beq_iff_eq,
      Bool.not_eq_true', beq_eq_false_iff_ne]; exact h)]
    push_neg at h
    constructor
    · constructor
      · intro hok; cases hok
      · intro ⟨th, hmem, haddr, hici⟩; exact absurd haddr (by simpa [hici] using h th hmem)
    · constructor
      · intro _ th hmem haddr hici; exact absurd haddr (by simpa [hici] using h th hmem)
      · intro _; rfl

/-- Claim C8: a thread contributes a register-snapshot write to the
image exactly when it was inside an interrupt frame at capture time
(`ici` nonzero); its thread preamble records `has_context` accordingly
and records the control-stack byte count as the distance between the
stack pointer at capture time and the stack's logical end; a thread
with no context contributes only its preamble, raw stacks and
thread-local block. -/
theorem context_snapshot_iff_interrupted (approx : Nat) (th : ThreadCap) :
    ((∃ op ∈ thread_writes approx th, op.kind = WriteKind.contextW) ↔ th.ici ≠ 0) ∧
    (thread_writes approx th).head? = some
      ⟨WriteKind.threadPreambleW,
        encodeThreadPreamble
          { address := th.address
            has_context := if th.ici ≠ 0 then 1 else 0
            control_stack_nbytes := th.control_stack_end - capture_sp approx th
            binding_stack_nbytes := th.bindingStack.length },
        true⟩ ∧
    (th.ici = 0 → (thread_writes approx th).map (fun op => op.kind) =
      [WriteKind.threadPreambleW, WriteKind.controlStackW,
       WriteKind.bindingStackW, WriteKind.tlsW]) := by
  by_cases h : th.ici = 0 <;>
    simp [thread_writes, h]

/-- Claim C6 (amended): a machine word in a restored control stack is
classified as a candidate object reference if and only if it falls
within the dynamic-space envelope and either its low-order tag bits
match an object-reference pattern or the page it falls on is a code
page. -/
theorem plausible_stack_word_iff (dynStart : Nat) (pt : List page) (w : Nat) :
    plausible_stack_word dynStart pt w = true ↔
      ((dynStart ≤ w ∧ w < dynStart + dynamic_space_size) ∧
       (is_lisp_pointer w = true ∨
        is_code ((pt.getD (find_page_index dynStart w) zeroPage).type) = true)) := by
  simp [plausible_stack_word, Bool.and_eq_true, Bool.or_eq_true, decide_eq_true_eq]

/-- Claim C6 counterexample: the word equal to the dynamic-space base is
classified as a candidate reference on a code page even though its
low-order tag bits do not match any object-reference pattern, so the
tag-bit condition is not necessary for classification. -/
theorem plausible_word_without_pointer_tag :
    plausible_stack_word 40 codePT 40 = true ∧ is_lisp_pointer 40 = false := by
  decide

/-- The diagnostic counts partition the classified stack words: valid
plus dangling equals the number of words the plausibility test
accepts. -/
theorem scan_stack_partition (dynStart : Nat) (pt : List page)
    (search : Nat → Option Nat) (ws : List Nat) :
    (scan_stack dynStart pt search ws).1 + (scan_stack dynStart pt search ws).2 =
      (ws.filter (plausible_stack_word dynStart pt)).length := by
  suffices h : ∀ (init : Nat × Nat),
      (ws.foldl
        (fun c w =>
          if plausible_stack_word dynStart pt w then
            match search w with
            | some _ => (c.1 + 1, c.2)
            | none => (c.1, c.2 + 1)
          else c)
        init).1 +
      (ws.foldl
        (fun c w =>
          if plausible_stack_word dynStart pt w then
            match search w with
            | some _ => (c.1 + 1, c.2)
            | none => (c.1, c.2 + 1)
          else c)
        init).2 =
      init.1 + init.2 + (ws.filter (plausible_stack_word dynStart pt)).length by
    simpa [scan_stack] using h (0, 0)
  induction ws with
  | nil => intro init; simp
  | cons w rest ih =>
      intro init
      by_cases hw : plausible_stack_word dynStart pt w
      · cases hs : search w <;>
          simp only [List.foldl_cons, List.filter_cons, hw, if_true, ite_true, hs,
            List.length_cons, ih] <;> omega
      · simp only [List.foldl_cons, List.filter_cons, hw, if_false, ite_false,
          Bool.false_eq_true, ih]

/-- Claim C9: replaying a thread's thread-local block leaves the
fixed-size identity header of the freshly allocated thread untouched
(keeping the new thread's identity fields) and overwrites only the
cells from the end of that header through the end of the block with the
dumped contents. -/
theorem tls_header_frame (search : Nat → Option Nat) (fresh : Nat → Fresh)
    (p : crash_preamble) (pt : List page) (approx i : Nat) (th : ThreadCap)
    (tail : List Nat)
    (hctx : p.sizeof_context = sizeof_os_context)
    (hskip : TLS_SKIP ≤ p.tls_size)
    (hwf : thread_wf approx p.tls_size th)
    (hfresh : TLS_SKIP ≤ (fresh i).tlsInit.length) :
    ∃ rth tel rest,
      loadThreads search fresh p pt 1 i (threadTokens approx th ++ tail) [] [] =
        .ok ([rth], tel, rest) ∧
      rth.tls.take TLS_SKIP = (fresh i).tlsInit.take TLS_SKIP ∧
      rth.tls.drop TLS_SKIP = th.tls.drop TLS_SKIP ∧
      rth.tls.length = p.tls_size := by
  have h1 := loadThreads_spec search fresh p pt approx hctx hskip [th] i [] [] tail
    (by intro t ht; rw [List.mem_singleton] at ht; subst ht; exact hwf)
  simp only [List.length_cons, List.length_nil, List.flatMap_cons, List.flatMap_nil,
    List.append_nil, restoredThreadsFrom, List.reverse_cons, List.reverse_nil,
    List.nil_append, List.map_cons, List.map_nil] at h1
  obtain ⟨_, _, _, htls⟩ := hwf
  have hlen : (((fresh i).tlsInit).take TLS_SKIP).length = TLS_SKIP := by
    rw [List.length_take]; omega
  refine ⟨restoredThread approx (fresh i) th, _, tail, h1, ?_, ?_, ?_⟩
  · simp only [restoredThread]
    exact take_append_exact _ _ hlen
  · simp only [restoredThread]
    exact drop_append_exact _ _ hlen
  · simp only [restoredThread, List.length_append, List.length_take, List.length_drop]
    omega

/-- Claim C1: restoring the image produced by capturing a well-formed
heap replays the static, dynamic and immobile region contents, the
dumped page-table entries and the card-table cells byte-identically,
and reconstructs exactly as many threads as were captured, each with
control-stack, binding-stack and thread-local contents identical to the
captured thread's, apart from the skipped identity-header at the front
of the thread-local block (which keeps the fresh thread's values). -/
theorem restore_capture_round_trip (H : Heap) (approx : Nat) (fresh : Nat → Fresh)
    (search : Nat → Option Nat) (ops : List WriteOp)
    (hwf : H.wf approx) (hfresh : FreshWf fresh)
    (hsave : save_gc_crashdump approx H = .ok ops) :
    ∃ R, load_gc_crashdump search fresh (tokensOf ops) = .ok R ∧
      R.staticBytes = H.staticBytes ∧
      R.dynBytes = H.dynBytes ∧
      R.page_table = H.page_table.take H.next_free_page ∧
      R.gc_card_mark = H.gc_card_mark ∧
      R.fixedobjBytes = H.fixedobjBytes ∧
      R.fixedobj_pages = H.fixedobj_pages ∧
      R.varyobjBytes = H.varyobjBytes ∧
      R.varyobj_page_touched_bits = H.varyobj_page_touched_bits ∧
      R.varyobj_pages = H.varyobj_pages ∧
      R.threads.length = H.threads.length ∧
      ∀ j th, H.threads[j]? = some th →
        ∃ r, R.threads.reverse[j]? = some r ∧
          r.controlStack = th.controlStack ∧
          r.bindingStack = th.bindingStack ∧
          r.tls.take TLS_SKIP = (fresh j).tlsInit.take TLS_SKIP ∧
          r.tls.drop TLS_SKIP = th.tls.drop TLS_SKIP ∧
          r.tls.length = H.tls_size := by
  have hops : ops = capture_writes H approx := by
    unfold save_gc_crashdump at hsave
    split at hsave
    · cases hsave
    · injection hsave with h; exact h.symm
  subst hops
  have hload : load_gc_crashdump search fresh (tokensOf (capture_writes H approx)) =
      .ok (expectedResult H approx fresh search) := by
    show load_gc_crashdump search fresh (image_tokens H approx) = _
    rw [image_tokens_eq, load_content H approx fresh search hwf CRASH_MAGIC]
    rw [show readN 8 CRASH_MAGIC = .ok (CRASH_MAGIC, []) from rfl]
    rfl
  refine ⟨expectedResult H approx fresh search, hload, rfl, rfl, rfl, rfl, rfl, rfl,
    rfl, rfl, rfl, ?_, ?_⟩
  · simp [expectedResult, restoredThreadsFrom_length]
  · intro j th hj
    have hmem : th ∈ H.threads := List.getElem?_mem hj
    obtain ⟨_, _, _, htls⟩ := hwf.2.2.2.2.2.2.2.2.2.2.2 th hmem
    have hskip : TLS_SKIP ≤ H.tls_size := hwf.2.2.2.2.2.2.2.2.2.2.1
    have hfj := hfresh j
    have hflen : (((fresh j).tlsInit).take TLS_SKIP).length = TLS_SKIP := by
      rw [List.length_take]; omega
    refine ⟨restoredThread approx (fresh j) th, ?_, rfl, rfl, ?_, ?_, ?_⟩
    · simp only [expectedResult, List.reverse_reverse]
      rw [restoredThreadsFrom_getElem?, hj, Nat.zero_add]
      rfl
    · simp only [restoredThread]
      exact take_append_exact _ _ hflen
    · simp only [restoredThread]
      exact drop_append_exact _ _ hflen
    · simp only [restoredThread, List.length_append, List.length_take, List.length_drop]
      omega

/-- Claim C2 (amended): restore fails fatally when the image's
structural signature differs from the reader's compiled-in signature,
and fails fatally when the image's declared card size differs from the
running configuration; the card-table index width, by contrast, is
adopted from the image rather than compared. -/
theorem restore_rejects_signature_and_card_size (search : Nat → Option Nat)
    (fresh : Nat → Fresh) (img a r1 : List Nat)
    (hread : readN SIZEOF_CRASH_PREAMBLE img = .ok (a, r1)) :
    ((decodePreamble a).signature ≠ CRASH_PREAMBLE_SIGNATURE →
      load_gc_crashdump search fresh img = .error .badHeader) ∧
    ((decodePreamble a).signature = CRASH_PREAMBLE_SIGNATURE →
      (decodePreamble a).card_size ≠ GENCGC_CARD_BYTES →
      load_gc_crashdump search fresh img = .error .memoryParams) := by
  constructor
  · intro h1
    simp only [load_gc_crashdump, hread, except_bind_ok]
    rw [if_pos h1]
    rfl
  · intro h1 h2
    simp only [load_gc_crashdump, hread, except_bind_ok]
    rw [if_neg (by simp [h1]), if_pos h2]
    rfl

/-- Claim C2 counterexample: an image whose preamble declares a
card-table index width different from the consumer's running
configuration is not rejected — restore succeeds, adopting the image's
width. -/
theorem card_width_mismatch_not_rejected :
    (load_gc_crashdump resolve0 fresh0 (image_tokens crashH2 approx0)).isOk = true ∧
    (decodePreamble ((image_tokens crashH2 approx0).take SIZEOF_CRASH_PREAMBLE)).card_table_nbits ≠
      gc_card_table_nbits_initial := by
  constructor
  · rw [image_tokens_eq, load_content crashH2 approx0 fresh0 resolve0 (by decide) CRASH_MAGIC]
    rw [show readN 8 CRASH_MAGIC = .ok (CRASH_MAGIC, []) from rfl]
    rfl
  · decide

/-- Claim C4: after the last thread record the reader demands the
trailing 8-cell magic, failing fatally on a mismatch, and additionally
fails fatally if any cell remains unconsumed after it; truncating the
concrete valid image at any cell boundary likewise makes restore
fail. -/
theorem trailer_validation (H : Heap) (approx : Nat) (fresh : Nat → Fresh)
    (search : Nat → Option Nat) (hwf : H.wf approx) :
    (∀ m extra, m.length = 8 → m ≠ CRASH_MAGIC →
      load_gc_crashdump search fresh (content_tokens H approx ++ (m ++ extra)) =
        .error .corruptTrailer) ∧
    (∀ extra, extra ≠ [] →
      load_gc_crashdump search fresh (image_tokens H approx ++ extra) =
        .error .extraBytes) ∧
    (∀ k, k < (image_tokens crashH0 approx0).length →
      (load_gc_crashdump resolve0 fresh0 ((image_tokens crashH0 approx0).take k)).isOk =
        false) := by
  refine ⟨?_, ?_, ?_⟩
  · intro m extra hm hneq
    rw [load_content H approx fresh search hwf (m ++ extra), readN_chunk m extra hm]
    simp only [except_bind_ok]
    rw [if_pos hneq]
    rfl
  · intro extra hne
    rw [image_tokens_eq, List.append_assoc,
      load_content H approx fresh search hwf (CRASH_MAGIC ++ extra),
      readN_chunk CRASH_MAGIC extra (show CRASH_MAGIC.length = 8 from rfl)]
    simp only [except_bind_ok, ne_eq, not_true_eq_false, if_false, ite_false]
    rw [if_pos hne]
    rfl
  · decide

theorem except_map_ok {ε α β : Type} (f : α → β) (a : α) :
    (Except.ok a : Except ε α).map f = .ok (f a) := rfl

theorem except_map_error {ε α β : Type} (f : α → β) (e : ε) :
    (Except.error e : Except ε α).map f = .error e := rfl

/-- The thread loop's reconstructed threads and stream position do not
depend on the object resolver; only the diagnostic counts do. -/
theorem loadThreads_search_agnostic (s s' : Nat → Option Nat) (fresh : Nat → Fresh)
    (p : crash_preamble) (pt : List page) :
    ∀ (n i : Nat) (r : List Nat) (acc : List RThread) (tel tel' : List (Nat × Nat)),
      (loadThreads s fresh p pt n i r acc tel).map (fun x => (x.1, x.2.2)) =
      (loadThreads s' fresh p pt n i r acc tel').map (fun x => (x.1, x.2.2)) := by
  intro n
  induction n with
  | zero => intro i r acc tel tel'; rfl
  | succ n ih =>
      intro i r acc tel tel'
      simp only [loadThreads]
      cases h1 : readN SIZEOF_CRASH_THREAD_PREAMBLE r with
      | error e => rfl
      | ok pr =>
          obtain ⟨tpre, r1⟩ := pr
          simp only [except_bind_ok]
          by_cases hc : (decodeThreadPreamble tpre).has_context ≠ 0
          · rw [if_pos hc, if_pos hc]
            cases h2 : readN p.sizeof_context r1 with
            | error e => rfl
            | ok pr2 =>
                obtain ⟨ctx, r2⟩ := pr2
                simp only [except_bind_ok]
                cases h3 : readN (decodeThreadPreamble tpre).control_stack_nbytes r2 with
                | error e => rfl
                | ok pr3 =>
                    obtain ⟨cs, r3⟩ := pr3
                    simp only [except_bind_ok]
                    cases h4 : readN (decodeThreadPreamble tpre).binding_stack_nbytes r3 with
                    | error e => rfl
                    | ok pr4 =>
                        obtain ⟨bs, r4⟩ := pr4
                        simp only [except_bind_ok]
                        cases h5 : readN TLS_SKIP r4 with
                        | error e => rfl
                        | ok pr5 =>
                            obtain ⟨d, r5⟩ := pr5
                            simp only [except_bind_ok]
                            cases h6 : readN (p.tls_size - TLS_SKIP) r5 with
                            | error e => rfl
                            | ok pr6 =>
                                obtain ⟨tl, r6⟩ := pr6
                                simp only [except_bind_ok]
                                exact ih (i + 1) r6 _ _ _
          · rw [if_neg hc, if_neg hc]
            simp only [except_pure_bind]
            cases h3 : readN (decodeThreadPreamble tpre).control_stack_nbytes r1 with
            | error e => rfl
            | ok pr3 =>
                obtain ⟨cs, r3⟩ := pr3
                simp only [except_bind_ok]
                cases h4 : readN (decodeThreadPreamble tpre).binding_stack_nbytes r3 with
                | error e => rfl
                | ok pr4 =>
                    obtain ⟨bs, r4⟩ := pr4
                    simp only [except_bind_ok]
                    cases h5 : readN TLS_SKIP r4 with
                    | error e => rfl
                    | ok pr5 =>
                        obtain ⟨d, r5⟩ := pr5
                        simp only [except_bind_ok]
                        cases h6 : readN (p.tls_size - TLS_SKIP) r5 with
                        | error e => rfl
                        | ok pr6 =>
                            obtain ⟨tl, r6⟩ := pr6
                            simp only [except_bind_ok]
                            exact ih (i + 1) r6 _ _ _

set_option maxHeartbeats 1600000 in
/-- The reader's outcome — success or the exact fatal error, and every
piece of reconstructed state — is independent of the object resolver
used by the diagnostic scan; only the reported counts vary. -/
theorem load_search_agnostic (s s' : Nat → Option Nat) (fresh : Nat → Fresh)
    (img : List Nat) :
    (load_gc_crashdump s fresh img).map stripTelemetry =
    (load_gc_crashdump s' fresh img).map stripTelemetry := by
  simp only [load_gc_crashdump]
  cases h1 : readN SIZEOF_CRASH_PREAMBLE img with
  | error e => simp only [except_bind_error, except_map_error]
  | ok pr =>
      obtain ⟨a, r1⟩ := pr
      simp only [except_bind_ok]
      by_cases hsig : (decodePreamble a).signature ≠ CRASH_PREAMBLE_SIGNATURE
      · rw [if_pos hsig, if_pos hsig]
      · rw [if_neg hsig, if_neg hsig]
        by_cases hcs : (decodePreamble a).card_size ≠ GENCGC_CARD_BYTES
        · rw [if_pos hcs, if_pos hcs]
        · rw [if_neg hcs, if_neg hcs]
          cases h2 : readN (decodePreamble a).static_nbytes r1 with
          | error e => simp only [except_bind_error, except_map_error]
          | ok pr2 =>
          obtain ⟨st, r2⟩ := pr2
          simp only [except_bind_ok]
          cases h3 : readN ((decodePreamble a).dynspace_npages * GENCGC_PAGE_BYTES) r2 with
          | error e => simp only [except_bind_error, except_map_error]
          | ok pr3 =>
          obtain ⟨dyn, r3⟩ := pr3
          simp only [except_bind_ok]
          cases h4 : readN ((decodePreamble a).dynspace_npages * PTE_NCELLS) r3 with
          | error e => simp only [except_bind_error, except_map_error]
          | ok pr4 =>
          obtain ⟨ptc, r4⟩ := pr4
          simp only [except_bind_ok]
          cases h5 : readN (1 + (2 ^ (decodePreamble a).card_table_nbits - 1)) r4 with
          | error e => simp only [except_bind_error, except_map_error]
          | ok pr5 =>
          obtain ⟨card, r5⟩ := pr5
          simp only [except_bind_ok]
          by_cases hfs : (decodePreamble a).fixedobj_size ≠ FIXEDOBJ_SPACE_SIZE
          · rw [if_pos hfs, if_pos hfs]
          · rw [if_neg hfs, if_neg hfs]
            by_cases hvs : (decodePreamble a).varyobj_size ≠ VARYOBJ_SPACE_SIZE
            · rw [if_pos hvs, if_pos hvs]
            · rw [if_neg hvs, if_neg hvs]
              cases h6 : readN ((decodePreamble a).fixedobj_free_pointer -
                  (decodePreamble a).fixedobj_start) r5 with
              | error e => simp only [except_bind_error, except_map_error]
              | ok pr6 =>
              obtain ⟨fb, r6⟩ := pr6
              simp only [except_bind_ok]
              cases h7 : readN FIXEDOBJ_TOTAL_NPAGES r6 with
              | error e => simp only [except_bind_error, except_map_error]
              | ok pr7 =>
              obtain ⟨fpt, r7⟩ := pr7
              simp only [except_bind_ok]
              cases h8 : readN ((decodePreamble a).varyobj_free_pointer -
                  (decodePreamble a).varyobj_start) r7 with
              | error e => simp only [except_bind_error, except_map_error]
              | ok pr8 =>
              obtain ⟨vb, r8⟩ := pr8
              simp only [except_bind_ok]
              cases h9 : readN VARYOBJ_N_BITMAP_ELTS r8 with
              | error e => simp only [except_bind_error, except_map_error]
              | ok pr9 =>
              obtain ⟨tb, r9⟩ := pr9
              simp only [except_bind_ok]
              cases h10 : readN VARYOBJ_TOTAL_NPAGES r9 with
              | error e => simp only [except_bind_error, except_map_error]
              | ok pr10 =>
              obtain ⟨vpt, r10⟩ := pr10
              simp only [except_bind_ok]
              have hL := loadThreads_search_agnostic s s' fresh (decodePreamble a)
                (decodePtes ptc) (decodePreamble a).nthreads 0 r10 [] [] []
              cases hS : loadThreads s fresh (decodePreamble a) (decodePtes ptc)
                  (decodePreamble a).nthreads 0 r10 [] [] with
              | error e =>
                  cases hS2 : loadThreads s' fresh (decodePreamble a) (decodePtes ptc)
                      (decodePreamble a).nthreads 0 r10 [] [] with
                  | error e2 =>
                      rw [hS, hS2] at hL
                      simp only [except_map_error] at hL
                      injection hL with he
                      subst he
                      rfl
                  | ok y =>
                      rw [hS, hS2] at hL
                      simp only [except_map_error, except_map_ok] at hL
                      cases hL
              | ok x =>
                  cases hS2 : loadThreads s' fresh (decodePreamble a) (decodePtes ptc)
                      (decodePreamble a).nthreads 0 r10 [] [] with
                  | error e2 =>
                      rw [hS, hS2] at hL
                      simp only [except_map_error, except_map_ok] at hL
                      cases hL
                  | ok y =>
                      rw [hS, hS2] at hL
                      obtain ⟨ths, tel, rr⟩ := x
                      obtain ⟨ths2, tel2, rr2⟩ := y
                      simp only [except_map_ok, Except.ok.injEq, Prod.mk.injEq] at hL
                      obtain ⟨hths, hrr⟩ := hL
                      subst hths
                      subst hrr
                      simp only [except_bind_ok]
                      cases h11 : readN 8 rr with
                      | error e => simp only [except_bind_error, except_map_error]
                      | ok pr11 =>
                      obtain ⟨mg, r11⟩ := pr11
                      simp only [except_bind_ok]
                      by_cases hmg : mg ≠ CRASH_MAGIC
                      · rw [if_pos hmg, if_pos hmg]
                      · rw [if_neg hmg, if_neg hmg]
                        by_cases hr : r11 ≠ []
                        · rw [if_pos hr, if_pos hr]
                        · rw [if_neg hr, if_neg hr]
                          rfl

theorem except_isOk_map {ε α β : Type} (f : α → β) (x : Except ε α) :
    (x.map f).isOk = x.isOk := by
  cases x <;> rfl

/-- Claim C7: the post-restore scan is advisory only — the reader's
success and every piece of reconstructed state are identical under any
object resolver (so no dangling count ever aborts restoration), and the
reported counts partition the classified stack words into resolved and
dangling ones. -/
theorem scan_is_advisory (s s' : Nat → Option Nat) (fresh : Nat → Fresh)
    (img : List Nat) (dynStart : Nat) (pt : List page) (ws : List Nat) :
    (load_gc_crashdump s fresh img).isOk = (load_gc_crashdump s' fresh img).isOk ∧
    (load_gc_crashdump s fresh img).map stripTelemetry =
      (load_gc_crashdump s' fresh img).map stripTelemetry ∧
    (scan_stack dynStart pt s ws).1 + (scan_stack dynStart pt s ws).2 =
      (ws.filter (plausible_stack_word dynStart pt)).length := by
  refine ⟨?_, load_search_agnostic s s' fresh img, scan_stack_partition dynStart pt s ws⟩
  rw [← except_isOk_map stripTelemetry (load_gc_crashdump s fresh img),
    load_search_agnostic s s' fresh img,
    except_isOk_map stripTelemetry (load_gc_crashdump s' fresh img)]

/-- Claim C3 (amended): every write the writer performs is a checked
write — a short transfer is fatal — except the optional
register-snapshot write, which is issued with a bare unchecked `write`;
and any short transfer on a checked write does terminate capture. -/
theorem checked_writes_except_context (H : Heap) (approx : Nat) :
    (∀ op ∈ capture_writes H approx, op.kind ≠ WriteKind.contextW → op.checked = true) ∧
    (∀ l : List (WriteOp × Nat),
      (∃ pr ∈ l, pr.1.checked = true ∧ pr.2 ≠ pr.1.data.length) →
      run_writes l = .error .shortWrite) := by
  constructor
  · intro op hop hk
    simp only [capture_writes, content_writes, List.mem_append, List.mem_cons,
      List.mem_flatMap, List.mem_singleton] at hop
    rcases hop with (h | h | h | h | h | h | h | h | h | h | ⟨th, hth, hmem⟩) | h
    · subst h; rfl
    · subst h; rfl
    · subst h; rfl
    · subst h; rfl
    · subst h; rfl
    · subst h; rfl
    · subst h; rfl
    · subst h; rfl
    · subst h; rfl
    · subst h; rfl
    · unfold thread_writes at hmem
      by_cases hici : th.ici = 0
      · simp only [hici, ne_eq, not_true_eq_false, if_false, ite_false,
          List.nil_append, List.mem_cons, List.not_mem_nil, or_false] at hmem
        rcases hmem with h | h | h | h <;> subst h <;> rfl
      · simp only [hici, ne_eq, not_false_eq_true, if_true, ite_true,
          List.singleton_append, List.mem_cons, List.not_mem_nil, or_false] at hmem
        rcases hmem with h | h | h | h | h
        · subst h; rfl
        · subst h; exact absurd rfl hk
        · subst h; rfl
        · subst h; rfl
        · subst h; rfl
    · rcases h with h | h
      · subst h; rfl
      · simp at h
  · intro l hex
    induction l with
    | nil => simp at hex
    | cons prh rest ih =>
        obtain ⟨op, actual⟩ := prh
        simp only [run_writes]
        by_cases hb : op.checked && !(actual == op.data.length)
        · rw [if_pos hb]
        · rw [if_neg hb]
          obtain ⟨pr, hpr, hch, hne⟩ := hex
          rcases List.mem_cons.mp hpr with heq | hmem
          · exfalso
            apply hb
            subst heq
            simp only [Bool.and_eq_true, Bool.not_eq_true', beq_eq_false_iff_ne]
            exact ⟨hch, hne⟩
          · exact ih ⟨pr, hmem, hch, hne⟩

/-- Claim C3 counterexample: a run in which only the register-snapshot
write transfers fewer cells than requested completes capture without
any fatal condition, because that write's transfer count is never
checked. -/
theorem short_context_write_not_fatal :
    run_writes (shortOnContext (capture_writes crashH0 approx0)) = .ok () ∧
    ∃ pr ∈ shortOnContext (capture_writes crashH0 approx0),
      pr.2 < pr.1.data.length := by
  decide

/-- Claim C5 (amended): during capture, region payloads (static,
dynamic, fixedobj, varyobj) are written only up to their high-water
marks, the card table and the fixedobj/varyobj page tables are written
in full to their declared capacities, and the dynamic page table is
written only up to `next_free_page` entries — its size tracks usage,
not capacity. -/
theorem table_capture_extents (H : Heap) (approx : Nat) (hwf : H.wf approx) :
    ((capture_writes H approx).map (fun op => (op.kind, op.data.length))).take 10 =
      [(WriteKind.preambleW, SIZEOF_CRASH_PREAMBLE),
       (WriteKind.staticW, H.staticBytes.length),
       (WriteKind.dynW, H.next_free_page * GENCGC_PAGE_BYTES),
       (WriteKind.pageTableW, H.next_free_page * PTE_NCELLS),
       (WriteKind.cardTableW, 2 ^ H.card_table_nbits),
       (WriteKind.fixedobjW, H.fixedobj_free_pointer - H.fixedobj_start),
       (WriteKind.fixedobjPTW, FIXEDOBJ_TOTAL_NPAGES),
       (WriteKind.varyobjW, H.varyobj_free_pointer - H.varyobj_start),
       (WriteKind.touchedBitsW, VARYOBJ_N_BITMAP_ELTS),
       (WriteKind.varyobjPTW, VARYOBJ_TOTAL_NPAGES)] := by
  obtain ⟨hdyn, hnfp, hcard, hfole, hfob, hfopt, hvole, hvob, htb, hvpt, hskip, hths⟩ := hwf
  simp only [capture_writes, content_writes, List.cons_append, List.map_cons,
    List.take_succ_cons, List.take_zero, encodePreamble_length,
    flatMap_encodePte_length, List.length_take, hdyn, hcard, hfob, hfopt, hvob,
    htb, hvpt]
  rw [Nat.min_eq_left hnfp]

/-- Claim C5 counterexample: two heaps with identical declared
capacities but different numbers of dynamic pages in use produce
different page-table write sizes (4 versus 8 cells), while the
card-table write size stays the same — so the dumped dynamic page-table
extent is a function of usage, not capacity. -/
theorem dynamic_page_table_extent_tracks_usage :
    crashHb.next_free_page ≠ crashH0.next_free_page ∧
    ((capture_writes crashH0 approx0).map (fun op => (op.kind, op.data.length)))[3]? =
      some (WriteKind.pageTableW, 4) ∧
    ((capture_writes crashHb approx0).map (fun op => (op.kind, op.data.length)))[3]? =
      some (WriteKind.pageTableW, 8) ∧
    ((capture_writes crashH0 approx0).map (fun op => (op.kind, op.data.length)))[4]? =
      some (WriteKind.cardTableW, 2) ∧
    ((capture_writes crashHb approx0).map (fun op => (op.kind, op.data.length)))[4]? =
      some (WriteKind.cardTableW, 2) := by
  decide

theorem restore_capture_round_trip_witness :
    crashH0.wf approx0 ∧
    ∃ R, load_gc_crashdump resolve0 fresh0 (tokensOf (capture_writes crashH0 approx0)) = .ok R ∧
      R.staticBytes = crashH0.staticBytes ∧
      R.threads.length = crashH0.threads.length := by
  have h := restore_capture_round_trip crashH0 approx0 fresh0 resolve0
    (capture_writes crashH0 approx0) (by decide) (by intro i; exact (by decide : TLS_SKIP ≤ 4)) rfl
  obtain ⟨R, hload, hst, _, _, _, _, _, _, _, _, hlen, _⟩ := h
  exact ⟨by decide, R, hload, hst, hlen⟩

theorem restore_rejects_signature_and_card_size_witness :
    load_gc_crashdump resolve0 fresh0
        [0, 0, 0, 0, 0, 0, 0, 0, 0, 0, 0, 0, 0, 0, 0, 0, 0, 0, 0] = .error .badHeader ∧
    load_gc_crashdump resolve0 fresh0
        [1245188, 0, 0, 0, 0, 99, 0, 0, 0, 0, 0, 0, 0, 0, 0, 0, 0, 0, 0] =
      .error .memoryParams :=
  ⟨(restore_rejects_signature_and_card_size resolve0 fresh0
      [0, 0, 0, 0, 0, 0, 0, 0, 0, 0, 0, 0, 0, 0, 0, 0, 0, 0, 0]
      [0, 0, 0, 0, 0, 0, 0, 0, 0, 0, 0, 0, 0, 0, 0, 0, 0, 0, 0] [] rfl).1 (by decide),
   (restore_rejects_signature_and_card_size resolve0 fresh0
      [1245188, 0, 0, 0, 0, 99, 0, 0, 0, 0, 0, 0, 0, 0, 0, 0, 0, 0, 0]
      [1245188, 0, 0, 0, 0, 99, 0, 0, 0, 0, 0, 0, 0, 0, 0, 0, 0, 0, 0] [] rfl).2
      (by decide) (by decide)⟩

theorem checked_writes_except_context_witness :
    (⟨WriteKind.trailerW, CRASH_MAGIC, true⟩ : WriteOp).checked = true ∧
    run_writes [(⟨WriteKind.staticW, [1, 2], true⟩, 1)] = .error .shortWrite :=
  ⟨(checked_writes_except_context crashH0 approx0).1 ⟨WriteKind.trailerW, CRASH_MAGIC, true⟩
      (by decide) (by decide),
   (checked_writes_except_context crashH0 approx0).2 [(⟨WriteKind.staticW, [1, 2], true⟩, 1)]
      ⟨(⟨WriteKind.staticW, [1, 2], true⟩, 1), by decide, rfl, by decide⟩⟩

theorem trailer_validation_witness :
    load_gc_crashdump resolve0 fresh0
        (content_tokens crashH0 approx0 ++ ([9, 9, 9, 9, 9, 9, 9, 9] ++ [])) =
      .error .corruptTrailer ∧
    load_gc_crashdump resolve0 fresh0 (image_tokens crashH0 approx0 ++ [0]) =
      .error .extraBytes :=
  ⟨(trailer_validation crashH0 approx0 fresh0 resolve0 (by decide)).1
      [9, 9, 9, 9, 9, 9, 9, 9] [] rfl (by decide),
   (trailer_validation crashH0 approx0 fresh0 resolve0 (by decide)).2.1 [0] (by decide)⟩

theorem table_capture_extents_witness :
    ((capture_writes crashH0 approx0).map (fun op => (op.kind, op.data.length))).take 10 =
      [(WriteKind.preambleW, SIZEOF_CRASH_PREAMBLE),
       (WriteKind.staticW, crashH0.staticBytes.length),
       (WriteKind.dynW, crashH0.next_free_page * GENCGC_PAGE_BYTES),
       (WriteKind.pageTableW, crashH0.next_free_page * PTE_NCELLS),
       (WriteKind.cardTableW, 2 ^ crashH0.card_table_nbits),
       (WriteKind.fixedobjW, crashH0.fixedobj_free_pointer - crashH0.fixedobj_start),
       (WriteKind.fixedobjPTW, FIXEDOBJ_TOTAL_NPAGES),
       (WriteKind.varyobjW, crashH0.varyobj_free_pointer - crashH0.varyobj_start),
       (WriteKind.touchedBitsW, VARYOBJ_N_BITMAP_ELTS),
       (WriteKind.varyobjPTW, VARYOBJ_TOTAL_NPAGES)] :=
  table_capture_extents crashH0 approx0 (by decide)

theorem context_snapshot_iff_interrupted_witness :
    (thread_writes approx0 thread1).map (fun op => op.kind) =
      [WriteKind.threadPreambleW, WriteKind.controlStackW,
       WriteKind.bindingStackW, WriteKind.tlsW] :=
  (context_snapshot_iff_interrupted approx0 thread1).2.2 rfl

theorem tls_header_frame_witness :
    ∃ rth tel rest,
      loadThreads resolve0 fresh0 (preambleOf crashH0) [] 1 0
          (threadTokens approx0 thread0 ++ []) [] [] = .ok ([rth], tel, rest) ∧
      rth.tls.take TLS_SKIP = (fresh0 0).tlsInit.take TLS_SKIP ∧
      rth.tls.drop TLS_SKIP = thread0.tls.drop TLS_SKIP ∧
      rth.tls.length = (preambleOf crashH0).tls_size :=
  tls_header_frame resolve0 fresh0 (preambleOf crashH0) [] approx0 0 thread0 []
    (by decide) (by decide) (by decide) (by decide)

theorem save_requires_context_for_other_threads_witness :
    save_gc_crashdump approx0 crashH0 = .ok (capture_writes crashH0 approx0) ∧
    save_gc_crashdump approx0 crashHerr = .error .noStackptr :=
  ⟨(save_requires_context_for_other_threads approx0 crashH0).2.mpr (by decide),
   (save_requires_context_for_other_threads approx0 crashHerr).1.mpr
     ⟨thread1, by decide, by decide, rfl⟩⟩

end SbclCrash
